import Mathlib

set_option maxRecDepth 100000

/-!
Shallow embedding of the `neotrellis` driver crate (`src/lib.rs`): the key
and event codecs, the FIFO decoding, the register-transport layer modelled
as a trace of bus transactions, the single-device driver operations, and
the multi-device composer.  Machine integers (`u8`, `u16`) are modelled as
`Nat`, with an explicit `% 2 ^ w` at the one place where the source widens
to `u16` before arithmetic.  Fallible driver code returns
`Option (BusState × Except Error α)`: the `Option` layer models Rust
panics (`assert!` / `unwrap`), the `Except` layer models `Result`.
-/

/-- Models `Color` from lib.rs: three 8-bit channels. -/
structure Color where
  r : Nat
  g : Nat
  b : Nat
deriving DecidableEq, Repr

/-- Models `Color::rgb` constructor. -/
def Color.rgb (r g b : Nat) : Color := ⟨r, g, b⟩

/-- Models `Color::as_grb_slice`: `[self.g, self.r, self.b]`. -/
def Color.as_grb_slice (c : Color) : List Nat := [c.g, c.r, c.b]

/-- Models `Event` from lib.rs, `#[repr(u8)]` with High = 0, Low = 1, Falling = 2,
Rising = 3. -/
inductive Event where
  | High
  | Low
  | Falling
  | Rising
deriving DecidableEq, Repr

/-- The `IntoPrimitive` conversion `u8::from(event)`. -/
def Event.toOrdinal : Event → Nat
  | .High => 0
  | .Low => 1
  | .Falling => 2
  | .Rising => 3

/-- The `TryFromPrimitive` conversion `Event::try_from(byte)`. -/
def Event.fromOrdinal : Nat → Option Event
  | 0 => some .High
  | 1 => some .Low
  | 2 => some .Falling
  | 3 => some .Rising
  | _ => none

/-- Models `Key(u8)` from lib.rs: newtype over the logical key index. -/
structure Key where
  val : Nat
deriving DecidableEq, Repr

/-- Models `Key::deserialize`: `((wire_byte & 0xf8) >> 1) | (wire_byte & 0x03)`. -/
def Key.deserialize (wire_byte : Nat) : Key :=
  ⟨((wire_byte &&& 0xf8) >>> 1) ||| (wire_byte &&& 0x03)⟩

/-- Models `Key::serialize`: `((self.0 & 0xC) << 1) | (self.0 & 0x03)`. -/
def Key.serialize (k : Key) : Nat :=
  ((k.val &&& 0xC) <<< 1) ||| (k.val &&& 0x03)

/-- Models `Key::index`. -/
def Key.index (k : Key) : Nat := k.val

/-- Models `Key::from_index`. -/
def Key.from_index (index : Nat) : Key := ⟨index⟩

/-- Models `KeypadEvent` from lib.rs. -/
structure KeypadEvent where
  key : Key
  event : Event
deriving DecidableEq, Repr

/-- Models `MultiEvent` from lib.rs: a global coordinate paired with an event. -/
structure MultiEvent where
  coordinate : Nat × Nat
  event : Event
deriving DecidableEq, Repr

/-- The error enum of the crate (declared in `src/error.rs`, used in lib.rs
as `Error::WrongChipId`, `Error::WriteError(e)` and `Error::ReadError(e)`;
the wrapped underlying bus error is external and not modelled). -/
inductive Error where
  | WrongChipId
  | WriteError
  | ReadError
deriving DecidableEq, Repr

/-- One bus-visible action of the driver: a raw I2C write of the given frame
bytes to the device address, a raw I2C read of `len` bytes, or a delay. -/
inductive Tx where
  | busWrite (bytes : List Nat)
  | busRead (len : Nat)
  | sleepMs (n : Nat)
  | sleepUs (n : Nat)
deriving DecidableEq, Repr

/-- Stub of the external bus: the byte behind the status hardware-ID
register, the bytes behind the keypad FIFO register, and an optional
injected failure at the bus operation with the given index. -/
structure Bus where
  hwId : Nat
  fifo : List Nat
  failOn : Option Nat
deriving DecidableEq, Repr

/-- Bus-side state accumulated by a run: how many fallible bus operations
(writes and reads) have been issued, and the full transaction trace. -/
structure BusState where
  opCount : Nat
  txs : List Tx
deriving DecidableEq, Repr

/-- The state a fresh driver run starts from. -/
def initialState : BusState := ⟨0, []⟩

/-- A driver computation: given the bus stub and the state so far, either
`none` (a Rust panic) or the new state together with `Ok`/`Err`. -/
def DriverM (α : Type) : Type :=
  Bus → BusState → Option (BusState × Except Error α)

/-- Sequencing of driver computations (`?` propagation in the source). -/
def dbind {α β : Type} (m : DriverM α) (f : α → DriverM β) : DriverM β :=
  fun bus s =>
    match m bus s with
    | none => none
    | some (s1, Except.error e) => some (s1, Except.error e)
    | some (s1, Except.ok a) => f a bus s1

/-- Models `Ok(a)` without touching the bus. -/
def dpure {α : Type} (a : α) : DriverM α :=
  fun _ s => some (s, Except.ok a)

/-- Models `Err(e)` without touching the bus. -/
def dthrow {α : Type} (e : Error) : DriverM α :=
  fun _ s => some (s, Except.error e)

/-- Models `delay.delay_ms(n)`. -/
def delay_ms (n : Nat) : DriverM Unit :=
  fun _ s => some (⟨s.opCount, s.txs ++ [Tx.sleepMs n]⟩, Except.ok ())

/-- Models `delay.delay_us(n)`. -/
def delay_us (n : Nat) : DriverM Unit :=
  fun _ s => some (⟨s.opCount, s.txs ++ [Tx.sleepUs n]⟩, Except.ok ())

/-- Module selector bytes from the `Module` enum in lib.rs. -/
def Module.Status : Nat := 0x00

/-- Models `Module::Neopixel = 0x0E`. -/
def Module.Neopixel : Nat := 0x0E

/-- Models `Module::Keypad = 0x10`. -/
def Module.Keypad : Nat := 0x10

/-- Register constants from lib.rs. -/
def STATUS_HW_ID : Nat := 0x01

/-- Models `STATUS_SWRST = 0x7f`. -/
def STATUS_SWRST : Nat := 0x7f

/-- Models `NEOPIXEL_PIN = 0x01`. -/
def NEOPIXEL_PIN : Nat := 0x01

/-- Models `NEOPIXEL_BUF_LENGTH = 0x03`. -/
def NEOPIXEL_BUF_LENGTH : Nat := 0x03

/-- Models `NEOPIXEL_BUF = 0x04`. -/
def NEOPIXEL_BUF : Nat := 0x04

/-- Models `NEOPIXEL_SHOW = 0x05`. -/
def NEOPIXEL_SHOW : Nat := 0x05

/-- Models `KEYPAD_EVENT = 0x01`. -/
def KEYPAD_EVENT : Nat := 0x01

/-- Models `KEYPAD_COUNT = 0x04`. -/
def KEYPAD_COUNT : Nat := 0x04

/-- Models `KEYPAD_FIFO = 0x10`. -/
def KEYPAD_FIFO : Nat := 0x10

/-- Models `HW_ID_CODE = 0x55`. -/
def HW_ID_CODE : Nat := 0x55

/-- Models `u16::to_be_bytes` of a value already reduced mod 2^16. -/
def u16_be (n : Nat) : List Nat := [n / 256 % 256, n % 256]

/-- Environment stub: the bytes the device returns for a read of `len`
bytes after register `(m, r)` was selected.  Only the two registers the
driver actually reads in the modelled operations carry meaningful data;
the FIFO response is zero-padded to the requested length. -/
def Bus.respond (bus : Bus) (m r len : Nat) : List Nat :=
  if m = Module.Status ∧ r = STATUS_HW_ID then
    List.take len (bus.hwId :: List.replicate (len - 1) 0)
  else if m = Module.Keypad ∧ r = KEYPAD_FIFO then
    List.take len (bus.fifo ++ List.replicate len 0)
  else
    List.replicate len 0

/-- Models `NeoTrellis::write_register`: asserts the payload is shorter than 32
bytes (panic = `none`), then issues one bus write of
`[module, register] ++ payload`. -/
def NeoTrellis.write_register (m r : Nat) (payload : List Nat) : DriverM Unit :=
  fun bus s =>
    if payload.length < 32 then
      if bus.failOn = some s.opCount then
        some (s, Except.error Error.WriteError)
      else
        some (⟨s.opCount + 1, s.txs ++ [Tx.busWrite ([m, r] ++ payload)]⟩, Except.ok ())
    else
      none

/-- The register-select write at the start of `NeoTrellis::read_register`
(a raw two-byte bus write, not going through `write_register`). -/
def NeoTrellis.selectWrite (m r : Nat) : DriverM Unit :=
  fun bus s =>
    if bus.failOn = some s.opCount then
      some (s, Except.error Error.WriteError)
    else
      some (⟨s.opCount + 1, s.txs ++ [Tx.busWrite [m, r]]⟩, Except.ok ())

/-- The raw bus read at the end of `NeoTrellis::read_register`; the data
comes from the bus stub. -/
def NeoTrellis.busReadOp (m r len : Nat) : DriverM (List Nat) :=
  fun bus s =>
    if bus.failOn = some s.opCount then
      some (s, Except.error Error.ReadError)
    else
      some (⟨s.opCount + 1, s.txs ++ [Tx.busRead len]⟩, Except.ok (bus.respond m r len))

/-- Models `NeoTrellis::read_register`: select the register, wait 6 ms, read. -/
def NeoTrellis.read_register (m r len : Nat) : DriverM (List Nat) :=
  dbind (NeoTrellis.selectWrite m r) fun _ =>
  dbind (delay_ms 6) fun _ =>
  NeoTrellis.busReadOp m r len

/-- Models `NeoTrellis::soft_reset`: write 0xFF to the reset register, wait
500 ms, read the hardware-ID byte, fail with `WrongChipId` when it is not
`HW_ID_CODE`. -/
def NeoTrellis.soft_reset : DriverM Unit :=
  dbind (NeoTrellis.write_register Module.Status STATUS_SWRST [0xff]) fun _ =>
  dbind (delay_ms 500) fun _ =>
  dbind (NeoTrellis.read_register Module.Status STATUS_HW_ID 1) fun id =>
  if id.headD 0 ≠ HW_ID_CODE then dthrow Error.WrongChipId else dpure ()

/-- Models `NeoTrellis::setup_neopixel`: pin 3, then buffer length 16 * 3 as a
big-endian u16. -/
def NeoTrellis.setup_neopixel : DriverM Unit :=
  dbind (NeoTrellis.write_register Module.Neopixel NEOPIXEL_PIN [3]) fun _ =>
  NeoTrellis.write_register Module.Neopixel NEOPIXEL_BUF_LENGTH (u16_be (16 * 3))

/-- The command byte of `NeoTrellis::set_key_event`:
`(1 << (u8::from(event) + 1)) | (enable as u8)`. -/
def eventCommand (e : Event) (enable : Bool) : Nat :=
  (1 <<< (e.toOrdinal + 1)) ||| (if enable then 1 else 0)

/-- Models `NeoTrellis::set_key_event`: two-byte payload
`[key.serialize(), command]` to the keypad event register. -/
def NeoTrellis.set_key_event (key : Key) (e : Event) (enable : Bool) : DriverM Unit :=
  NeoTrellis.write_register Module.Keypad KEYPAD_EVENT [key.serialize, eventCommand e enable]

/-- The loop body of `NeoTrellis::setup_keypad` for one key. -/
def NeoTrellis.setupKeyEvents (key : Key) : DriverM Unit :=
  dbind (NeoTrellis.set_key_event key Event.Low false) fun _ =>
  dbind (NeoTrellis.set_key_event key Event.High false) fun _ =>
  dbind (NeoTrellis.set_key_event key Event.Falling true) fun _ =>
  NeoTrellis.set_key_event key Event.Rising true

/-- Models `NeoTrellis::setup_keypad`: `for i in 0..16 { ... }`. -/
def NeoTrellis.setup_keypad : DriverM Unit :=
  (List.range 16).foldl
    (fun acc i => dbind acc fun _ => NeoTrellis.setupKeyEvents (Key.from_index i))
    (dpure ())

/-- Models `NeoTrellis::new`: soft reset and identification, neopixel setup,
keypad setup.  The returned driver value itself carries no state beyond
the bus, so the result type is `Unit` here. -/
def NeoTrellis.new : DriverM Unit :=
  dbind NeoTrellis.soft_reset fun _ =>
  dbind NeoTrellis.setup_neopixel fun _ =>
  NeoTrellis.setup_keypad

/-- Models `NeoTrellis::set_led_color`: `led_address = (led as u16) * 3`, payload
= big-endian offset bytes followed by the G,R,B channels, then 100 µs. -/
def NeoTrellis.set_led_color (led : Nat) (c : Color) : DriverM Unit :=
  dbind (NeoTrellis.write_register Module.Neopixel NEOPIXEL_BUF
    (u16_be ((led * 3) % 65536) ++ c.as_grb_slice)) fun _ =>
  delay_us 100

/-- Models `NeoTrellis::show_led`: empty payload to the show register, 100 µs. -/
def NeoTrellis.show_led : DriverM Unit :=
  dbind (NeoTrellis.write_register Module.Neopixel NEOPIXEL_SHOW []) fun _ =>
  delay_us 100

/-- One decoded FIFO byte, the loop body of `NeoTrellis::read_key_events`:
0xFF is the empty sentinel, otherwise the upper bits are the key wire byte
and the lower two bits the event ordinal.  The `none` fallthrough of the
inner match is unreachable (`byte &&& 0x03 < 4`) and models the `.unwrap()`. -/
def decodeFifoByte (b : Nat) : Option KeypadEvent :=
  if b = 0xff then
    none
  else
    match Event.fromOrdinal (b &&& 0x03) with
    | some e => some ⟨Key.deserialize (b >>> 2), e⟩
    | none => none

/-- Models `NeoTrellis::read_key_events` with an output buffer of `n` slots:
asserts `n ≤ 32` (panic = `none`), reads `n` bytes from the FIFO register
in one bus read, and decodes each byte in order. -/
def NeoTrellis.read_key_events (n : Nat) : DriverM (List (Option KeypadEvent)) :=
  fun bus s =>
    if n ≤ 32 then
      (dbind (NeoTrellis.read_register Module.Keypad KEYPAD_FIFO n) fun buf =>
        dpure (buf.map decodeFifoByte)) bus s
    else
      none

/-- The tile resolved by `MultiTrellis::set_led_color`:
`(x / 4, y / 4)`, outer slice index first (tile column). -/
def tileOf (x y : Nat) : Nat × Nat := (x / 4, y / 4)

/-- The local key index computed by `MultiTrellis::set_led_color`:
`x % 4 + (y % 4) * 4`. -/
def localIndexOf (x y : Nat) : Nat := x % 4 + (y % 4) * 4

/-- The global coordinate computed in `MultiTrellis::read_events` for a
local key at tile `(tx, ty)`:
`(4 * tx + key.index() % 4, 4 * ty + key.index() / 4)`. -/
def localCoordinate (tx ty keyIndex : Nat) : Nat × Nat :=
  (4 * tx + keyIndex % 4, 4 * ty + keyIndex / 4)

/-- One tile of the composer: its bus stub plus bus state so far. -/
def Tile : Type := Bus × BusState

/-- A placeholder tile for guarded `getD` accesses (never reached). -/
def defaultTile : Tile := (⟨0, [], none⟩, initialState)

/-- The composer grid `&mut [&mut [NeoTrellis]]`, outer index = tile
column. -/
def Grid : Type := List (List Tile)

/-- Models `MultiTrellis::set_led_color`: resolve the tile of `(x, y)`; when in
bounds, delegate to that tile's `set_led_color` with the local index and
store its updated state back; otherwise return `Ok(())` untouched. -/
def MultiTrellis.set_led_color (grid : Grid) (x y : Nat) (c : Color) :
    Option (Grid × Except Error Unit) :=
  let tx := (tileOf x y).1
  let ty := (tileOf x y).2
  let i := localIndexOf x y
  if tx < grid.length ∧ ty < (grid.getD tx []).length then
    let row := grid.getD tx []
    let tile := row.getD ty defaultTile
    match NeoTrellis.set_led_color i c tile.1 tile.2 with
    | none => none
    | some (s1, res) => some (grid.set tx (row.set ty (tile.1, s1)), res)
  else
    some (grid, Except.ok ())

/-- The inner `for e in single_event` loop of `MultiTrellis::read_events`
for the tile at column `x`, row `y`: every present decoded event is
written to the single output slot `x + 4 * y`, translated to its global
coordinate; an out-of-range slot index panics (`none`). -/
def tileEventsInto (x y : Nat) (locals : List (Option KeypadEvent))
    (events : List (Option MultiEvent)) : Option (List (Option MultiEvent)) :=
  match locals with
  | [] => some events
  | none :: rest => tileEventsInto x y rest events
  | some ke :: rest =>
      if x + 4 * y < events.length then
        tileEventsInto x y rest
          (events.set (x + 4 * y) (some ⟨localCoordinate x y ke.key.index, ke.event⟩))
      else
        none

/-- The inner loop of `MultiTrellis::read_events` over one column of
tiles (`x` fixed, `y` running): each tile reads up to 16 local events into
a fresh scratch buffer and merges them into the output. -/
def MultiTrellis.readColumn (x y : Nat) (row : List Tile)
    (events : List (Option MultiEvent)) :
    Option (List Tile × List (Option MultiEvent) × Except Error Unit) :=
  match row with
  | [] => some ([], events, Except.ok ())
  | t :: rest =>
    match NeoTrellis.read_key_events 16 t.1 t.2 with
    | none => none
    | some (s1, Except.error e) => some ((t.1, s1) :: rest, events, Except.error e)
    | some (s1, Except.ok locals) =>
      match tileEventsInto x y locals events with
      | none => none
      | some ev1 =>
        match MultiTrellis.readColumn x (y + 1) rest ev1 with
        | none => none
        | some (rest1, ev2, res) => some ((t.1, s1) :: rest1, ev2, res)

/-- The outer loop of `MultiTrellis::read_events` over tile columns. -/
def MultiTrellis.readColumns (x : Nat) (grid : Grid)
    (events : List (Option MultiEvent)) :
    Option (Grid × List (Option MultiEvent) × Except Error Unit) :=
  match grid with
  | [] => some ([], events, Except.ok ())
  | row :: rest =>
    match MultiTrellis.readColumn x 0 row events with
    | none => none
    | some (row1, ev1, Except.error e) => some (row1 :: rest, ev1, Except.error e)
    | some (row1, ev1, Except.ok ()) =>
      match MultiTrellis.readColumns (x + 1) rest ev1 with
      | none => none
      | some (rest1, ev2, res) => some (row1 :: rest1, ev2, res)

/-- Models `MultiTrellis::read_events`. -/
def MultiTrellis.read_events (grid : Grid) (events : List (Option MultiEvent)) :
    Option (Grid × List (Option MultiEvent) × Except Error Unit) :=
  MultiTrellis.readColumns 0 grid events

/-- The last present entry of a scratch event buffer (spec-side helper
describing which event survives the per-tile slot overwrites). -/
def lastSome {α : Type} : List (Option α) → Option α
  | [] => none
  | none :: rest => lastSome rest
  | some a :: rest => some ((lastSome rest).getD a)

/-- Spec-side helper: the value the per-tile loop leaves in output slot
`x + 4 * y`, given the slot's previous value. -/
def slotResult (x y : Nat) (locals : List (Option KeypadEvent))
    (old : Option MultiEvent) : Option MultiEvent :=
  match lastSome locals with
  | none => old
  | some ke => some ⟨localCoordinate x y ke.key.index, ke.event⟩

/-- Spec-side checker: with a failure injected at bus operation `k`,
`NeoTrellis::new` stops with a transport error exactly at that operation. -/
def abortsCleanlyAt (k : Nat) : Bool :=
  match NeoTrellis.new ⟨0x55, [], some k⟩ initialState with
  | some (s, Except.error Error.WriteError) => s.opCount == k
  | some (s, Except.error Error.ReadError) => s.opCount == k
  | _ => false

/-- Helper: one successful `write_register` run appends exactly its frame. -/
theorem write_register_run (m r : Nat) (payload : List Nat) (h : payload.length < 32)
    (bus : Bus) (s : BusState) (hf : bus.failOn = none) :
    NeoTrellis.write_register m r payload bus s =
      some (⟨s.opCount + 1, s.txs ++ [Tx.busWrite ([m, r] ++ payload)]⟩, Except.ok ()) := by
  simp [NeoTrellis.write_register, h, hf]

/-- Helper: one successful `read_register` run issues the select write, the
6 ms delay and one bus read, and returns the stub's response. -/
theorem read_register_run (m r len : Nat) (bus : Bus) (s : BusState)
    (hf : bus.failOn = none) :
    NeoTrellis.read_register m r len bus s =
      some (⟨s.opCount + 2, s.txs ++ [Tx.busWrite [m, r], Tx.sleepMs 6, Tx.busRead len]⟩,
        Except.ok (bus.respond m r len)) := by
  simp [NeoTrellis.read_register, NeoTrellis.selectWrite, NeoTrellis.busReadOp,
    delay_ms, dbind, hf]

/-- C1: key codec round-trip.  For every index `k < 16` the serialized
wire byte deserializes back to `k`; for every wire byte with only bits
0, 1, 3, 4 possibly set (bit 2 and the high bits zero, the bytes the
device legitimately emits) deserializing and re-serializing returns the
byte unchanged. -/
theorem key_codec_round_trip :
    (∀ k, k < 16 → (Key.deserialize (Key.serialize (Key.from_index k))).index = k) ∧
    (∀ b, b < 256 → b &&& 0xE4 = 0 → Key.serialize (Key.deserialize b) = b) := by
  constructor
  · decide
  · decide

theorem key_codec_round_trip_witness :
    (Key.deserialize (Key.serialize (Key.from_index 5))).index = 5 ∧
    Key.serialize (Key.deserialize 9) = 9 :=
  ⟨key_codec_round_trip.1 5 (by decide), key_codec_round_trip.2 9 (by decide) (by decide)⟩

/-- Helper: one successful single-device `set_led_color` run. -/
theorem set_led_color_run (led : Nat) (h : led < 256) (c : Color) (bus : Bus)
    (s : BusState) (hf : bus.failOn = none) :
    NeoTrellis.set_led_color led c bus s =
      some (⟨s.opCount + 1,
        s.txs ++ [Tx.busWrite [Module.Neopixel, NEOPIXEL_BUF,
          led * 3 / 256, led * 3 % 256, c.g, c.r, c.b], Tx.sleepUs 100]⟩,
        Except.ok ()) := by
  have h1 : led * 3 % 65536 = led * 3 := Nat.mod_eq_of_lt (by omega)
  have h2 : led * 3 / 256 % 256 = led * 3 / 256 := Nat.mod_eq_of_lt (by omega)
  simp [NeoTrellis.set_led_color, NeoTrellis.write_register, dbind, delay_us,
    u16_be, Color.as_grb_slice, hf, h1, h2]

/-- C4: the single-device `set_led_color` writes to the neopixel buffer
register a 5-byte payload: the big-endian 16-bit offset `led * 3` followed
by the channels in green, red, blue order; at led 7 and color
(r = 10, g = 20, b = 30) the payload is `[0x00, 0x15, 20, 10, 30]`. -/
theorem set_led_color_payload (led : Nat) (h : led < 256) (c : Color) (bus : Bus)
    (s : BusState) (hf : bus.failOn = none) :
    (NeoTrellis.set_led_color led c bus s =
      some (⟨s.opCount + 1,
        s.txs ++ [Tx.busWrite ([Module.Neopixel, NEOPIXEL_BUF] ++
          [led * 3 / 256, led * 3 % 256] ++ [c.g, c.r, c.b]), Tx.sleepUs 100]⟩,
        Except.ok ())) ∧
    NeoTrellis.set_led_color 7 (Color.rgb 10 20 30) bus s =
      some (⟨s.opCount + 1,
        s.txs ++ [Tx.busWrite ([Module.Neopixel, NEOPIXEL_BUF] ++
          [0x00, 0x15, 20, 10, 30]), Tx.sleepUs 100]⟩,
        Except.ok ()) := by
  constructor
  · simpa using set_led_color_run led h c bus s hf
  · simpa using set_led_color_run 7 (by omega) (Color.rgb 10 20 30) bus s hf

theorem set_led_color_payload_witness :
    NeoTrellis.set_led_color 7 (Color.rgb 10 20 30) ⟨0x55, [], none⟩ initialState =
      some (⟨1, [Tx.busWrite ([Module.Neopixel, NEOPIXEL_BUF] ++
        [0x00, 0x15, 20, 10, 30]), Tx.sleepUs 100]⟩, Except.ok ()) := by
  simpa using
    (set_led_color_payload 7 (by omega) (Color.rgb 10 20 30) ⟨0x55, [], none⟩
      initialState rfl).2

/-- C5: `set_key_event` writes to the keypad event register the 2-byte
payload `[key.serialize(), (1 << (ordinal + 1)) | enable_bit]`; enabling
edge-rising gives command byte 0x11 and disabling level-high gives 0x02. -/
theorem set_key_event_payload (key : Key) (e : Event) (enable : Bool) (bus : Bus)
    (s : BusState) (hf : bus.failOn = none) :
    (NeoTrellis.set_key_event key e enable bus s =
      some (⟨s.opCount + 1,
        s.txs ++ [Tx.busWrite [Module.Keypad, KEYPAD_EVENT, key.serialize,
          (1 <<< (e.toOrdinal + 1)) ||| (if enable then 1 else 0)]]⟩,
        Except.ok ())) ∧
    eventCommand Event.Rising true = 0x11 ∧
    eventCommand Event.High false = 0x02 := by
  refine ⟨?_, by decide, by decide⟩
  simpa [eventCommand] using
    write_register_run Module.Keypad KEYPAD_EVENT
      [key.serialize, eventCommand e enable] (by simp) bus s hf

theorem set_key_event_payload_witness :
    NeoTrellis.set_key_event (Key.from_index 3) Event.Rising true ⟨0x55, [], none⟩
        initialState =
      some (⟨1, [Tx.busWrite [Module.Keypad, KEYPAD_EVENT,
        (Key.from_index 3).serialize, (1 <<< (Event.Rising.toOrdinal + 1)) |||
        (if true then 1 else 0)]]⟩, Except.ok ()) :=
  (set_key_event_payload (Key.from_index 3) Event.Rising true ⟨0x55, [], none⟩
    initialState rfl).1

/-- Helper: decoding a non-sentinel FIFO byte yields the key from the
upper bits and the event from the low two bits. -/
theorem decodeFifoByte_of_ne (b : Nat) (hb : b ≠ 0xff) :
    ∃ ev, decodeFifoByte b = some ev ∧
      ev.key = Key.deserialize (b >>> 2) ∧ ev.event.toOrdinal = b &&& 0x03 := by
  have hle : b &&& 0x03 < 4 := Nat.lt_succ_of_le Nat.and_le_right
  have h4 : b &&& 0x03 = 0 ∨ b &&& 0x03 = 1 ∨ b &&& 0x03 = 2 ∨ b &&& 0x03 = 3 := by
    omega
  rcases h4 with h4 | h4 | h4 | h4
  · exact ⟨⟨Key.deserialize (b >>> 2), Event.High⟩,
      by simp [decodeFifoByte, hb, h4, Event.fromOrdinal], rfl,
      by simp [Event.toOrdinal, h4]⟩
  · exact ⟨⟨Key.deserialize (b >>> 2), Event.Low⟩,
      by simp [decodeFifoByte, hb, h4, Event.fromOrdinal], rfl,
      by simp [Event.toOrdinal, h4]⟩
  · exact ⟨⟨Key.deserialize (b >>> 2), Event.Falling⟩,
      by simp [decodeFifoByte, hb, h4, Event.fromOrdinal], rfl,
      by simp [Event.toOrdinal, h4]⟩
  · exact ⟨⟨Key.deserialize (b >>> 2), Event.Rising⟩,
      by simp [decodeFifoByte, hb, h4, Event.fromOrdinal], rfl,
      by simp [Event.toOrdinal, h4]⟩

/-- C2: `read_key_events` on a FIFO response of length at most 32 returns,
slot by slot in FIFO order, `none` exactly for the 0xFF sentinel bytes and
otherwise the event whose key is `Key::deserialize(byte >> 2)` and whose
ordinal is `byte & 0x03`. -/
theorem read_key_events_fifo_decoding (fifo : List Nat) (h32 : fifo.length ≤ 32)
    (bus : Bus) (s : BusState) (hfifo : bus.fifo = fifo) (hf : bus.failOn = none) :
    ∃ (out : List (Option KeypadEvent)) (s1 : BusState),
      NeoTrellis.read_key_events fifo.length bus s = some (s1, Except.ok out) ∧
      out.length = fifo.length ∧
      ∀ (i b : Nat), fifo[i]? = some b →
        ((b = 0xff → out[i]? = some none) ∧
         (b ≠ 0xff → ∃ (ev : KeypadEvent), out[i]? = some (some ev) ∧
            ev.key = Key.deserialize (b >>> 2) ∧ ev.event.toOrdinal = b &&& 0x03)) := by
  have hresp : bus.respond Module.Keypad KEYPAD_FIFO fifo.length = fifo := by
    have ht : List.take fifo.length (fifo ++ List.replicate fifo.length 0) = fifo :=
      List.take_left' rfl
    simp [Bus.respond, Module.Keypad, Module.Status, KEYPAD_FIFO, STATUS_HW_ID,
      hfifo, ht]
  refine ⟨fifo.map decodeFifoByte,
    ⟨s.opCount + 2, s.txs ++ [Tx.busWrite [Module.Keypad, KEYPAD_FIFO],
      Tx.sleepMs 6, Tx.busRead fifo.length]⟩, ?_, by simp, ?_⟩
  · simp only [NeoTrellis.read_key_events, if_pos h32, dbind, dpure,
      read_register_run _ _ _ bus s hf, hresp]
  · intro i b hib
    have hout : (fifo.map decodeFifoByte)[i]? = some (decodeFifoByte b) := by
      simp [List.getElem?_map, hib]
    constructor
    · intro hb
      simp [hout, hb, decodeFifoByte]
    · intro hb
      obtain ⟨ev, hev, hk, ho⟩ := decodeFifoByte_of_ne b hb
      exact ⟨ev, by simp [hout, hev], hk, ho⟩

theorem read_key_events_fifo_decoding_witness :
    ∃ (out : List (Option KeypadEvent)) (s1 : BusState),
      NeoTrellis.read_key_events ([0xff, 0x26, 0x03] : List Nat).length
        ⟨0x55, [0xff, 0x26, 0x03], none⟩ initialState = some (s1, Except.ok out) ∧
      out.length = ([0xff, 0x26, 0x03] : List Nat).length ∧
      ∀ (i b : Nat), ([0xff, 0x26, 0x03] : List Nat)[i]? = some b →
        ((b = 0xff → out[i]? = some none) ∧
         (b ≠ 0xff → ∃ (ev : KeypadEvent), out[i]? = some (some ev) ∧
            ev.key = Key.deserialize (b >>> 2) ∧ ev.event.toOrdinal = b &&& 0x03)) :=
  read_key_events_fifo_decoding [0xff, 0x26, 0x03] (by decide)
    ⟨0x55, [0xff, 0x26, 0x03], none⟩ initialState rfl rfl

/-- C9: `read_key_events` with a buffer of more than 32 slots panics
immediately (the contract violation fails loudly, nothing is truncated);
with at most 32 slots the length check never fires, and the whole FIFO
transfer is one bus read of exactly `n` bytes. -/
theorem read_key_events_buffer_contract (n : Nat) (bus : Bus) (s : BusState) :
    (32 < n → NeoTrellis.read_key_events n bus s = none) ∧
    (n ≤ 32 → NeoTrellis.read_key_events n bus s ≠ none) ∧
    (n ≤ 32 → bus.failOn = none →
      NeoTrellis.read_key_events n bus s =
        some (⟨s.opCount + 2, s.txs ++ [Tx.busWrite [Module.Keypad, KEYPAD_FIFO],
          Tx.sleepMs 6, Tx.busRead n]⟩,
          Except.ok ((bus.respond Module.Keypad KEYPAD_FIFO n).map decodeFifoByte))) := by
  refine ⟨fun h => ?_, fun h => ?_, fun h hf => ?_⟩
  · simp [NeoTrellis.read_key_events, Nat.not_le.mpr h]
  · simp only [NeoTrellis.read_key_events, if_pos h, NeoTrellis.read_register,
      NeoTrellis.selectWrite, NeoTrellis.busReadOp, delay_ms, dbind, dpure]
    by_cases h0 : bus.failOn = some s.opCount <;>
      by_cases h1 : bus.failOn = some (s.opCount + 1) <;>
        simp [h0, h1]
  · simp only [NeoTrellis.read_key_events, if_pos h, dbind, dpure,
      read_register_run _ _ _ bus s hf]

theorem read_key_events_buffer_contract_witness :
    NeoTrellis.read_key_events 33 ⟨0x55, [], none⟩ initialState = none ∧
    NeoTrellis.read_key_events 16 ⟨0x55, [], none⟩ initialState ≠ none ∧
    NeoTrellis.read_key_events 16 ⟨0x55, [], none⟩ initialState =
      some (⟨2, [Tx.busWrite [Module.Keypad, KEYPAD_FIFO], Tx.sleepMs 6,
        Tx.busRead 16]⟩,
        Except.ok (((⟨0x55, [], none⟩ : Bus).respond Module.Keypad KEYPAD_FIFO 16).map
          decodeFifoByte)) :=
  ⟨(read_key_events_buffer_contract 33 ⟨0x55, [], none⟩ initialState).1 (by omega),
   (read_key_events_buffer_contract 16 ⟨0x55, [], none⟩ initialState).2.1 (by omega),
   by
    simpa using
      (read_key_events_buffer_contract 16 ⟨0x55, [], none⟩ initialState).2.2
        (by omega) rfl⟩

/-- Helper: `dbind` propagates an error from its first component. -/
theorem dbind_error {α β : Type} {m : DriverM α} {f : α → DriverM β} {bus : Bus}
    {s s1 : BusState} {e : Error} (h : m bus s = some (s1, Except.error e)) :
    dbind m f bus s = some (s1, Except.error e) := by
  simp [dbind, h]

/-- Helper: a failure-free `soft_reset` run issues the reset write, the
500 ms wait, and the hardware-ID read, and fails exactly when the returned
identification byte differs from `HW_ID_CODE`. -/
theorem soft_reset_run (hw : Nat) (fifo : List Nat) (s : BusState) :
    NeoTrellis.soft_reset ⟨hw, fifo, none⟩ s =
      some (⟨s.opCount + 3, s.txs ++ [Tx.busWrite [Module.Status, STATUS_SWRST, 0xff],
        Tx.sleepMs 500, Tx.busWrite [Module.Status, STATUS_HW_ID], Tx.sleepMs 6,
        Tx.busRead 1]⟩,
        if hw = HW_ID_CODE then Except.ok () else Except.error Error.WrongChipId) := by
  simp only [NeoTrellis.soft_reset, dbind,
    write_register_run Module.Status STATUS_SWRST [0xff] (by simp) ⟨hw, fifo, none⟩ s rfl,
    delay_ms, read_register_run Module.Status STATUS_HW_ID 1 ⟨hw, fifo, none⟩ _ rfl]
  by_cases h : hw = 85 <;>
    simp [Bus.respond, dthrow, dpure, HW_ID_CODE, h, Nat.add_assoc]

/-- C6: with hardware ID 0x55 and no bus failure, `new` succeeds, writes
pixel pin 3, writes the pixel buffer length 48 = 16 * 3 as a big-endian
16-bit value, and for each of the 16 keys disables the level-high and
level-low events and enables the edge-falling and edge-rising events. -/
theorem new_device_setup (bus : Bus) (h1 : bus.hwId = 0x55)
    (h2 : bus.failOn = none) :
    ∃ (s : BusState), NeoTrellis.new bus initialState = some (s, Except.ok ()) ∧
      Tx.busWrite [Module.Neopixel, NEOPIXEL_PIN, 3] ∈ s.txs ∧
      Tx.busWrite ([Module.Neopixel, NEOPIXEL_BUF_LENGTH] ++ u16_be 48) ∈ s.txs ∧
      ∀ k, k < 16 →
        (Tx.busWrite [Module.Keypad, KEYPAD_EVENT, (Key.from_index k).serialize,
          eventCommand Event.High false] ∈ s.txs ∧
         Tx.busWrite [Module.Keypad, KEYPAD_EVENT, (Key.from_index k).serialize,
          eventCommand Event.Low false] ∈ s.txs ∧
         Tx.busWrite [Module.Keypad, KEYPAD_EVENT, (Key.from_index k).serialize,
          eventCommand Event.Falling true] ∈ s.txs ∧
         Tx.busWrite [Module.Keypad, KEYPAD_EVENT, (Key.from_index k).serialize,
          eventCommand Event.Rising true] ∈ s.txs) := by
  obtain ⟨hw, fifo, fl⟩ := bus
  simp only at h1 h2
  subst h1
  subst h2
  have hclose : NeoTrellis.new ⟨0x55, fifo, none⟩ initialState =
      NeoTrellis.new ⟨0x55, [], none⟩ initialState := rfl
  rw [hclose]
  exact ⟨_, rfl, by decide, by decide, by decide⟩

theorem new_device_setup_witness :
    ∃ (s : BusState),
      NeoTrellis.new ⟨0x55, [], none⟩ initialState = some (s, Except.ok ()) ∧
      Tx.busWrite [Module.Neopixel, NEOPIXEL_PIN, 3] ∈ s.txs ∧
      Tx.busWrite ([Module.Neopixel, NEOPIXEL_BUF_LENGTH] ++ u16_be 48) ∈ s.txs ∧
      ∀ k, k < 16 →
        (Tx.busWrite [Module.Keypad, KEYPAD_EVENT, (Key.from_index k).serialize,
          eventCommand Event.High false] ∈ s.txs ∧
         Tx.busWrite [Module.Keypad, KEYPAD_EVENT, (Key.from_index k).serialize,
          eventCommand Event.Low false] ∈ s.txs ∧
         Tx.busWrite [Module.Keypad, KEYPAD_EVENT, (Key.from_index k).serialize,
          eventCommand Event.Falling true] ∈ s.txs ∧
         Tx.busWrite [Module.Keypad, KEYPAD_EVENT, (Key.from_index k).serialize,
          eventCommand Event.Rising true] ∈ s.txs) :=
  new_device_setup ⟨0x55, [], none⟩ rfl rfl

/-- C7: when the hardware-ID byte is not 0x55, `new` fails with the
distinct `WrongChipId` error having issued only status-module writes (no
pixel or keypad configuration); and a transport failure injected at any of
the 69 bus operations of a full initialization aborts the run right there
with the corresponding transport error. -/
theorem new_wrong_chip_id_aborts (bus : Bus) (h1 : bus.hwId ≠ 0x55)
    (h2 : bus.failOn = none) :
    (NeoTrellis.new bus initialState =
      some (⟨3, [Tx.busWrite [Module.Status, STATUS_SWRST, 0xff], Tx.sleepMs 500,
        Tx.busWrite [Module.Status, STATUS_HW_ID], Tx.sleepMs 6, Tx.busRead 1]⟩,
        Except.error Error.WrongChipId)) ∧
    (∀ (st : BusState) (e : Error),
      NeoTrellis.new bus initialState = some (st, Except.error e) →
      ∀ bytes, Tx.busWrite bytes ∈ st.txs → bytes.headD 0 = Module.Status) ∧
    (∀ k, k < 69 → abortsCleanlyAt k = true) := by
  obtain ⟨hw, fifo, fl⟩ := bus
  simp only at h1 h2
  subst h2
  have hne : ¬ hw = HW_ID_CODE := by simpa [HW_ID_CODE] using h1
  have hsr := soft_reset_run hw fifo initialState
  rw [if_neg hne] at hsr
  have hrun : NeoTrellis.new ⟨hw, fifo, none⟩ initialState =
      some (⟨3, [Tx.busWrite [Module.Status, STATUS_SWRST, 0xff], Tx.sleepMs 500,
        Tx.busWrite [Module.Status, STATUS_HW_ID], Tx.sleepMs 6, Tx.busRead 1]⟩,
        Except.error Error.WrongChipId) :=
    (dbind_error hsr).trans (by simp [initialState])
  refine ⟨hrun, ?_, by decide⟩
  intro st e hst bytes hbytes
  rw [hrun] at hst
  simp only [Option.some.injEq, Prod.mk.injEq] at hst
  obtain ⟨hst1, -⟩ := hst
  rw [← hst1] at hbytes
  simp only [List.mem_cons, List.not_mem_nil, or_false] at hbytes
  rcases hbytes with h | h | h | h | h <;> simp_all [Module.Status]

theorem new_wrong_chip_id_aborts_witness :
    (NeoTrellis.new ⟨0x00, [], none⟩ initialState =
      some (⟨3, [Tx.busWrite [Module.Status, STATUS_SWRST, 0xff], Tx.sleepMs 500,
        Tx.busWrite [Module.Status, STATUS_HW_ID], Tx.sleepMs 6, Tx.busRead 1]⟩,
        Except.error Error.WrongChipId)) ∧
    (∀ (st : BusState) (e : Error),
      NeoTrellis.new ⟨0x00, [], none⟩ initialState = some (st, Except.error e) →
      ∀ bytes, Tx.busWrite bytes ∈ st.txs → bytes.headD 0 = Module.Status) ∧
    (∀ k, k < 69 → abortsCleanlyAt k = true) :=
  new_wrong_chip_id_aborts ⟨0x00, [], none⟩ (by decide) rfl

/-- C3: the composer coordinate maps are mutually consistent.  Resolving a
global `(x, y)` to its tile and local index and translating a local event
at that tile back yields `(x, y)` again; a local key at row `r`, column
`c` of tile `(tx, ty)` maps to global `(4 * tx + c, 4 * ty + r)`; global
(5, 9) resolves to tile (1, 2) with local index 5, the composer's
`set_led_color` at (5, 9) on a 2-column, 3-row grid touches exactly that
tile with led 5, and an event at tile (1, 2) for key 5 is reported at
global (5, 9). -/
theorem coordinate_mapping_consistent :
    (∀ x y : Nat,
      localCoordinate (tileOf x y).1 (tileOf x y).2 (localIndexOf x y) = (x, y)) ∧
    (∀ tx ty r c : Nat, r < 4 → c < 4 →
      localCoordinate tx ty (c + r * 4) = (4 * tx + c, 4 * ty + r)) ∧
    tileOf 5 9 = (1, 2) ∧ localIndexOf 5 9 = 5 ∧
    MultiTrellis.set_led_color
        (List.replicate 2 (List.replicate 3 ((⟨0x55, [], none⟩ : Bus), initialState)))
        5 9 (Color.rgb 1 2 3) =
      some ([[((⟨0x55, [], none⟩ : Bus), initialState),
              ((⟨0x55, [], none⟩ : Bus), initialState),
              ((⟨0x55, [], none⟩ : Bus), initialState)],
             [((⟨0x55, [], none⟩ : Bus), initialState),
              ((⟨0x55, [], none⟩ : Bus), initialState),
              ((⟨0x55, [], none⟩ : Bus),
                ⟨1, [Tx.busWrite [Module.Neopixel, NEOPIXEL_BUF, 0, 15, 2, 1, 3],
                  Tx.sleepUs 100]⟩)]], Except.ok ()) ∧
    tileEventsInto 1 2 [some ⟨Key.from_index 5, Event.Rising⟩]
        (List.replicate 16 none) =
      some ((List.replicate 16 none).set 9 (some ⟨(5, 9), Event.Rising⟩)) := by
  refine ⟨?_, ?_, by decide, by decide, by rfl, by rfl⟩
  · intro x y
    simp only [tileOf, localIndexOf, localCoordinate, Prod.mk.injEq]
    constructor <;> omega
  · intro tx ty r c hr hc
    simp only [localCoordinate, Prod.mk.injEq]
    constructor <;> omega

theorem coordinate_mapping_consistent_witness :
    localCoordinate 1 2 (1 + 1 * 4) = (4 * 1 + 1, 4 * 2 + 1) :=
  coordinate_mapping_consistent.2.1 1 2 1 1 (by decide) (by decide)

/-- C8: the composer's `set_led_color` on a coordinate whose tile lies
outside the grid returns `Ok` with the grid untouched (hence no bus
transaction); on an in-bounds coordinate it delegates exactly one
`set_led_color` call with the local index to the resolved tile. -/
theorem multi_set_led_color_bounds (grid : Grid) (x y : Nat) (c : Color) :
    (¬ ((tileOf x y).1 < grid.length ∧
        (tileOf x y).2 < (grid.getD (tileOf x y).1 []).length) →
      MultiTrellis.set_led_color grid x y c = some (grid, Except.ok ())) ∧
    (((tileOf x y).1 < grid.length ∧
        (tileOf x y).2 < (grid.getD (tileOf x y).1 []).length) →
      ∀ (s1 : BusState) (res : Except Error Unit),
        NeoTrellis.set_led_color (localIndexOf x y) c
          ((grid.getD (tileOf x y).1 []).getD (tileOf x y).2 defaultTile).1
          ((grid.getD (tileOf x y).1 []).getD (tileOf x y).2 defaultTile).2 =
            some (s1, res) →
        MultiTrellis.set_led_color grid x y c =
          some (grid.set (tileOf x y).1
            ((grid.getD (tileOf x y).1 []).set (tileOf x y).2
              (((grid.getD (tileOf x y).1 []).getD (tileOf x y).2 defaultTile).1, s1)),
            res)) := by
  constructor
  · intro h
    simp only [MultiTrellis.set_led_color, if_neg h]
  · intro h s1 res hrun
    simp only [MultiTrellis.set_led_color, if_pos h, hrun]

theorem multi_set_led_color_bounds_witness :
    MultiTrellis.set_led_color [[((⟨0x55, [], none⟩ : Bus), initialState)]] 4 0
        (Color.rgb 1 2 3) =
      some ([[((⟨0x55, [], none⟩ : Bus), initialState)]], Except.ok ()) ∧
    MultiTrellis.set_led_color [[((⟨0x55, [], none⟩ : Bus), initialState)]] 1 2
        (Color.rgb 1 2 3) =
      some ([[((⟨0x55, [], none⟩ : Bus),
        (⟨1, [Tx.busWrite [Module.Neopixel, NEOPIXEL_BUF, 0, 27, 2, 1, 3],
          Tx.sleepUs 100]⟩ : BusState))]], Except.ok ()) := by
  constructor
  · exact (multi_set_led_color_bounds
      [[((⟨0x55, [], none⟩ : Bus), initialState)]] 4 0 (Color.rgb 1 2 3)).1
      (by decide)
  · exact (multi_set_led_color_bounds
      [[((⟨0x55, [], none⟩ : Bus), initialState)]] 1 2 (Color.rgb 1 2 3)).2
      (by decide)
      ⟨1, [Tx.busWrite [Module.Neopixel, NEOPIXEL_BUF, 0, 27, 2, 1, 3], Tx.sleepUs 100]⟩
      (Except.ok ()) rfl

/-- Helper: the per-tile merge loop of `read_events` writes every present
local event into the single slot `x + 4 * y`, leaving all other slots
untouched, so the slot ends up holding the translation of the last present
local event (or its old value when no event is present). -/
theorem tileEventsInto_spec (x y : Nat) (locals : List (Option KeypadEvent)) :
    ∀ (events : List (Option MultiEvent)), x + 4 * y < events.length →
      ∃ (out : List (Option MultiEvent)),
        tileEventsInto x y locals events = some out ∧
        out.length = events.length ∧
        (∀ j, j ≠ x + 4 * y → out[j]? = events[j]?) ∧
        out[x + 4 * y]? = some (slotResult x y locals (events.getD (x + 4 * y) none)) := by
  induction locals with
  | nil =>
    intro events h
    refine ⟨events, rfl, rfl, fun j _ => rfl, ?_⟩
    simp [slotResult, lastSome, List.getD_eq_getElem?_getD, List.getElem?_eq_getElem h]
  | cons head tail ih =>
    cases head with
    | none =>
      intro events h
      obtain ⟨out, h1, h2, h3, h4⟩ := ih events h
      exact ⟨out, h1, h2, h3, h4⟩
    | some ke =>
      intro events h
      obtain ⟨out, h1, h2, h3, h4⟩ := ih
        (events.set (x + 4 * y) (some ⟨localCoordinate x y ke.key.index, ke.event⟩))
        (by simpa using h)
      refine ⟨out, ?_, by simpa using h2, ?_, ?_⟩
      · have hstep : tileEventsInto x y (some ke :: tail) events =
            tileEventsInto x y tail
              (events.set (x + 4 * y)
                (some ⟨localCoordinate x y ke.key.index, ke.event⟩)) := by
          simp [tileEventsInto, h]
        rw [hstep, h1]
      · intro j hj
        rw [h3 j hj]
        exact List.getElem?_set_ne (Ne.symm hj)
      · rw [h4]
        have hset : (events.set (x + 4 * y)
            (some ⟨localCoordinate x y ke.key.index, ke.event⟩)).getD (x + 4 * y) none =
            some ⟨localCoordinate x y ke.key.index, ke.event⟩ := by
          simp [List.getD_eq_getElem?_getD, List.getElem?_set_self h]
        rw [hset]
        cases hlt : lastSome tail <;> simp [slotResult, lastSome, hlt]

/-- C10: in the composer's `read_events`, all of a tile's decoded local
events land in the one output slot `tile_col + 4 * tile_row`, each
overwriting the previous, so only the last present event of that tile's
FIFO read survives; concretely, a single-tile grid whose FIFO holds the
two events (key 0, rising) then (key 5, falling) reports only the latter
at global (1, 1). -/
theorem read_events_tile_slot_overwrite :
    (∀ (x y : Nat) (locals : List (Option KeypadEvent))
        (events : List (Option MultiEvent)), x + 4 * y < events.length →
      ∃ (out : List (Option MultiEvent)),
        tileEventsInto x y locals events = some out ∧
        out.length = events.length ∧
        (∀ j, j ≠ x + 4 * y → out[j]? = events[j]?) ∧
        out[x + 4 * y]? = some (slotResult x y locals (events.getD (x + 4 * y) none))) ∧
    (MultiTrellis.read_events
        [[((⟨0x55, [0x03, 0x26, 0xff, 0xff, 0xff, 0xff, 0xff, 0xff, 0xff, 0xff,
            0xff, 0xff, 0xff, 0xff, 0xff, 0xff], none⟩ : Bus), initialState)]]
        [none]).map (fun r => r.2.1) =
      some [some ⟨(1, 1), Event.Falling⟩] := by
  refine ⟨?_, by rfl⟩
  intro x y locals events h
  exact tileEventsInto_spec x y locals events h

theorem read_events_tile_slot_overwrite_witness :
    ∃ (out : List (Option MultiEvent)),
      tileEventsInto 0 0 [some ⟨Key.from_index 0, Event.Rising⟩,
        some ⟨Key.from_index 5, Event.Falling⟩] [none] = some out ∧
      out.length = ([none] : List (Option MultiEvent)).length ∧
      (∀ j, j ≠ 0 + 4 * 0 → out[j]? = ([none] : List (Option MultiEvent))[j]?) ∧
      out[0 + 4 * 0]? = some (slotResult 0 0 [some ⟨Key.from_index 0, Event.Rising⟩,
        some ⟨Key.from_index 5, Event.Falling⟩]
        (([none] : List (Option MultiEvent)).getD (0 + 4 * 0) none)) :=
  read_events_tile_slot_overwrite.1 0 0
    [some ⟨Key.from_index 0, Event.Rising⟩, some ⟨Key.from_index 5, Event.Falling⟩]
    [none] (by decide)
